import Mathlib

/-!
Verification development for the dopamine-reset-coach prototype.

The scoring and persistence logic lives in
`src/components/DopamineResetCoachPrototype.tsx`.  JavaScript numbers are
modelled by `ℚ` (all arithmetic in the scoring formulas is exact decimal
arithmetic on small values); `Math.round` is modelled by `⌊q + 1/2⌋`, which is
the JS round-half-up behaviour; JS strings are Lean `String`s.
-/

namespace DRC

/-- Source helper `clamp(n, min, max) = Math.max(min, Math.min(max, n))`. -/
def clamp (n lo hi : ℚ) : ℚ := max lo (min hi n)

/-- The same clamping applied to an already-rounded integer, as in
`clamp(Math.round(raw), 0, 100)`. -/
def intClamp (n lo hi : ℤ) : ℤ := max lo (min hi n)

/-- JS `Math.round`: round half toward positive infinity, i.e. `⌊q + 1/2⌋`. -/
def jsRound (q : ℚ) : ℤ := ⌊q + 1 / 2⌋

/-- Source type `ToggleItem`: a label with a boolean value. -/
structure ToggleItem where
  label : String
  value : Bool
deriving DecidableEq, Repr

/-- The fixed virtue record `{ study, gym, meditate }` of a check-in. -/
structure Virtues where
  study : Bool
  gym : Bool
  meditate : Bool
deriving DecidableEq, Repr

/-- Source type `Strictness`: one of "Light", "Standard", "Hard". -/
inductive Strictness where
  | Light
  | Standard
  | Hard
deriving DecidableEq, Repr

/-- The daily check-in record (`type Checkin` in the source), fields in
declaration order. -/
structure Checkin where
  date : String
  loadItems : List ToggleItem
  virtues : Virtues
  sleepHours : ℚ
  sleepQuality : ℚ
  caffeineMg : ℚ
  socialMinutes : ℚ
  workout : Bool
  mood : ℚ
  energy : ℚ
  junkFood : Bool
  notes : String
  calories : ℚ
  proteinG : ℚ
  carbsG : ℚ
  fatG : ℚ
deriving DecidableEq, Repr

/-- Source helper `makeDefaultCheckin(date)`. -/
def makeDefaultCheckin (date : String) : Checkin where
  date := date
  loadItems := []
  virtues := ⟨false, false, false⟩
  sleepHours := 7.5
  sleepQuality := 7
  caffeineMg := 0
  socialMinutes := 0
  workout := false
  mood := 7
  energy := 7
  junkFood := false
  notes := ""
  calories := 0
  proteinG := 0
  carbsG := 0
  fatG := 0

/-- Source helper `virtuesCount(v)`: how many of study, gym, meditate are on. -/
def virtuesCount (v : Virtues) : ℕ :=
  (if v.study then 1 else 0) + (if v.gym then 1 else 0) + (if v.meditate then 1 else 0)

/-- Count of active load items, `(d.loadItems || []).filter((x) => x.value).length`. -/
def loadOnCount (items : List ToggleItem) : ℕ :=
  (items.filter fun x => x.value).length

/-- The local `raw` of `computeDLS`:
`social + caffeine + junk + extraLoad + workout + goodSleep - virtues`,
with each summand translated literally from the source. -/
def dlsRaw (d : Checkin) : ℚ :=
  let social := clamp (d.socialMinutes / 10 * 3) 0 30
  let caffeine := clamp (d.caffeineMg / 50 * 2.5) 0 20
  let junk : ℚ := if d.junkFood then 10 else 0
  let extraLoad := clamp ((loadOnCount d.loadItems : ℚ) * 6) 0 30
  let virtues := clamp ((virtuesCount d.virtues : ℚ) * 3) 0 12
  let workout : ℚ := if d.workout then -10 else 0
  let goodSleep : ℚ := if 7.5 ≤ d.sleepHours then -10 else 0
  social + caffeine + junk + extraLoad + workout + goodSleep - virtues

/-- Source function `computeDLS(d) = clamp(Math.round(raw), 0, 100)`; the result is an
integer, so it is given type `ℤ`. -/
def computeDLS (d : Checkin) : ℤ := intClamp (jsRound (dlsRaw d)) 0 100

/-- Source function `computeNEI(history)`: the last 7 records (`slice(-7)`),
default 50 when there are none, otherwise the weighted average formula
rounded and clamped. -/
def computeNEI (history : List Checkin) : ℤ :=
  let last7 := history.drop (history.length - 7)
  if last7.length = 0 then 50
  else
    let avgEnergy := (last7.map fun x => x.energy).sum / (last7.length : ℚ)
    let avgSleep := (last7.map fun x => x.sleepHours).sum / (last7.length : ℚ)
    let loadDays := (last7.filter fun x => x.loadItems.any fun i => i.value).length
    let virtueDays := (last7.filter fun x => decide (1 ≤ virtuesCount x.virtues)).length
    let score := avgEnergy * 10 + (if 7.5 ≤ avgSleep then (5 : ℚ) else 0) +
      (if 3 ≤ loadDays then (-8 : ℚ) else 0) + (if 4 ≤ virtueDays then (6 : ℚ) else 0)
    intClamp (jsRound score) 0 100

/-- Restatement of the DLS formula in the spec's own wording (weighted sum
with explicit subtractions), to be compared with `computeDLS`. -/
def specDLS (d : Checkin) : ℤ :=
  intClamp (jsRound (
    clamp (d.socialMinutes / 10 * 3) 0 30 +
    clamp (d.caffeineMg / 50 * 2.5) 0 20 +
    (if d.junkFood then (10 : ℚ) else 0) +
    clamp (6 * (loadOnCount d.loadItems : ℚ)) 0 30 -
    clamp (3 * (virtuesCount d.virtues : ℚ)) 0 12 -
    (if d.workout then (10 : ℚ) else 0) -
    (if 7.5 ≤ d.sleepHours then (10 : ℚ) else 0))) 0 100

/-- Restatement of the NEI formula in the spec's own wording, to be compared
with `computeNEI`. -/
def specNEI (history : List Checkin) : ℤ :=
  if history.drop (history.length - 7) = [] then 50
  else
    let last7 := history.drop (history.length - 7)
    let avgEnergy := (last7.map fun x => x.energy).sum / (last7.length : ℚ)
    let avgSleep := (last7.map fun x => x.sleepHours).sum / (last7.length : ℚ)
    let loadDays := (last7.filter fun x => x.loadItems.any fun i => i.value).length
    let virtueDays := (last7.filter fun x => decide (1 ≤ virtuesCount x.virtues)).length
    intClamp (jsRound (avgEnergy * 10 + (if 7.5 ≤ avgSleep then (5 : ℚ) else 0) -
      (if 3 ≤ loadDays then (8 : ℚ) else 0) + (if 4 ≤ virtueDays then (6 : ℚ) else 0))) 0 100

/-- The concrete record of the spec's worked DLS example: socialMinutes 100,
caffeineMg 100, junk food, no load items, no virtues, no workout, 6h sleep. -/
def exampleRecord : Checkin :=
  { makeDefaultCheckin "2024-01-01" with
    socialMinutes := 100
    caffeineMg := 100
    junkFood := true
    sleepHours := 6 }

theorem clamp_mono {a b lo hi : ℚ} (h : a ≤ b) : clamp a lo hi ≤ clamp b lo hi :=
  max_le_max le_rfl (min_le_min le_rfl h)

theorem intClamp_mono {a b lo hi : ℤ} (h : a ≤ b) : intClamp a lo hi ≤ intClamp b lo hi :=
  max_le_max le_rfl (min_le_min le_rfl h)

theorem jsRound_mono {a b : ℚ} (h : a ≤ b) : jsRound a ≤ jsRound b :=
  Int.floor_le_floor (by linarith)

theorem intClamp_mem {n lo hi : ℤ} (h : lo ≤ hi) :
    lo ≤ intClamp n lo hi ∧ intClamp n lo hi ≤ hi :=
  ⟨le_max_left _ _, max_le h (min_le_left _ _)⟩

theorem computeDLS_le_of_raw_le {a b : Checkin} (h : dlsRaw a ≤ dlsRaw b) :
    computeDLS a ≤ computeDLS b :=
  intClamp_mono (jsRound_mono h)

/-- C1: `computeDLS` equals the spec's clamped weighted-sum formula, and the
spec's worked example (social 100, caffeine 100, junk food, sleep 6) scores 45. -/
theorem computeDLS_eq_specDLS :
    (∀ d : Checkin, computeDLS d = specDLS d) ∧ computeDLS exampleRecord = 45 := by
  constructor
  · intro d
    unfold computeDLS specDLS dlsRaw
    congr 2
    by_cases hj : d.junkFood <;> by_cases hw : d.workout <;>
      by_cases hs : (7.5 : ℚ) ≤ d.sleepHours <;>
      simp only [hj, hw, hs, if_true, if_false, if_pos, if_neg, not_false_iff,
        Bool.false_eq_true, ite_true, ite_false] <;> ring_nf
  · norm_num [computeDLS, intClamp, jsRound, dlsRaw, clamp, exampleRecord,
      makeDefaultCheckin, loadOnCount, virtuesCount]

/-- C2: `computeNEI` equals the spec's last-7-records formula, and the empty
history yields the default 50. -/
theorem computeNEI_eq_specNEI :
    (∀ history : List Checkin, computeNEI history = specNEI history) ∧
    computeNEI [] = 50 := by
  constructor
  · intro h
    simp only [computeNEI, specNEI]
    by_cases he : h.drop (h.length - 7) = []
    · simp [he]
    · have hne : ¬(h.drop (h.length - 7)).length = 0 := fun hc => he (List.length_eq_zero.mp hc)
      rw [if_neg hne, if_neg he]
      congr 2
      by_cases hl : 3 ≤ ((h.drop (h.length - 7)).filter fun x =>
          x.loadItems.any fun i => i.value).length <;>
        simp only [hl, if_true, if_false, ite_true, ite_false, if_pos, if_neg,
          not_false_iff] <;> ring_nf
  · rfl

/-- C5: for every record `computeDLS` is an integer in [0,100], and for every
history `computeNEI` is an integer in [0,100]. -/
theorem scores_in_range :
    (∀ d : Checkin, 0 ≤ computeDLS d ∧ computeDLS d ≤ 100) ∧
    (∀ history : List Checkin, 0 ≤ computeNEI history ∧ computeNEI history ≤ 100) := by
  constructor
  · intro d
    exact intClamp_mem (by norm_num)
  · intro history
    simp only [computeNEI]
    split
    · norm_num
    · exact intClamp_mem (by norm_num)

/-- C10: `computeDLS` reads only socialMinutes, caffeineMg, junkFood,
loadItems, virtues, workout and sleepHours; two records agreeing on these
seven fields get the same score. -/
theorem computeDLS_depends_only_on_seven_fields :
    ∀ d d' : Checkin, d.socialMinutes = d'.socialMinutes → d.caffeineMg = d'.caffeineMg →
    d.junkFood = d'.junkFood → d.loadItems = d'.loadItems → d.virtues = d'.virtues →
    d.workout = d'.workout → d.sleepHours = d'.sleepHours →
    computeDLS d = computeDLS d' := by
  intro d d' h1 h2 h3 h4 h5 h6 h7
  unfold computeDLS dlsRaw
  rw [h1, h2, h3, h4, h5, h6, h7]

/-- A pair of concrete records for the C10 witness: they agree on the seven
scoring fields and differ in date, mood, energy, notes and calories. -/
def witnessRecordA : Checkin :=
  { makeDefaultCheckin "2024-01-01" with
    socialMinutes := 30
    caffeineMg := 150
    junkFood := true
    mood := 2
    energy := 3
    notes := "rough day"
    calories := 2500 }

def witnessRecordB : Checkin :=
  { makeDefaultCheckin "2024-02-02" with
    socialMinutes := 30
    caffeineMg := 150
    junkFood := true
    mood := 9
    energy := 8
    notes := ""
    calories := 1800 }

theorem computeDLS_depends_only_on_seven_fields_witness :
    witnessRecordA.socialMinutes = witnessRecordB.socialMinutes ∧
    computeDLS witnessRecordA = computeDLS witnessRecordB :=
  ⟨rfl, computeDLS_depends_only_on_seven_fields witnessRecordA witnessRecordB
    rfl rfl rfl rfl rfl rfl rfl⟩

/-- C6: `computeDLS` is non-decreasing in socialMinutes, caffeineMg, junkFood
and the active-load-item count, and non-increasing in the virtue count,
workout and sleepHours, each field varied separately. -/
theorem computeDLS_monotone (d : Checkin) :
    (∀ s1 s2 : ℚ, 0 ≤ s1 → s1 ≤ s2 →
      computeDLS { d with socialMinutes := s1 } ≤ computeDLS { d with socialMinutes := s2 }) ∧
    (∀ c1 c2 : ℚ, 0 ≤ c1 → c1 ≤ c2 →
      computeDLS { d with caffeineMg := c1 } ≤ computeDLS { d with caffeineMg := c2 }) ∧
    (computeDLS { d with junkFood := false } ≤ computeDLS { d with junkFood := true }) ∧
    (∀ L1 L2 : List ToggleItem, loadOnCount L1 ≤ loadOnCount L2 →
      computeDLS { d with loadItems := L1 } ≤ computeDLS { d with loadItems := L2 }) ∧
    (∀ v1 v2 : Virtues, virtuesCount v1 ≤ virtuesCount v2 →
      computeDLS { d with virtues := v2 } ≤ computeDLS { d with virtues := v1 }) ∧
    (computeDLS { d with workout := true } ≤ computeDLS { d with workout := false }) ∧
    (∀ q1 q2 : ℚ, q1 ≤ q2 →
      computeDLS { d with sleepHours := q2 } ≤ computeDLS { d with sleepHours := q1 }) := by
  refine ⟨?_, ?_, ?_, ?_, ?_, ?_, ?_⟩
  · intro s1 s2 h0 h12
    apply computeDLS_le_of_raw_le
    simp only [dlsRaw, clamp]
    gcongr
  · intro c1 c2 h0 h12
    apply computeDLS_le_of_raw_le
    simp only [dlsRaw, clamp]
    gcongr
  · apply computeDLS_le_of_raw_le
    simp only [dlsRaw, clamp]
    gcongr
    norm_num
  · intro L1 L2 h12
    apply computeDLS_le_of_raw_le
    simp only [dlsRaw, clamp]
    gcongr
  · intro v1 v2 h12
    apply computeDLS_le_of_raw_le
    simp only [dlsRaw, clamp]
    gcongr
  · apply computeDLS_le_of_raw_le
    simp only [dlsRaw, clamp]
    gcongr
    norm_num
  · intro q1 q2 h12
    apply computeDLS_le_of_raw_le
    simp only [dlsRaw, clamp]
    gcongr
    by_cases hq : 7.5 ≤ q1
    · rw [if_pos hq, if_pos (le_trans hq h12)]
    · rw [if_neg hq]
      split <;> norm_num

/-- The `level` field of a coach task. -/
inductive CoachLevel where
  | Easy
  | Medium
  | Hard
deriving DecidableEq, Repr

/-- Source type `CoachTask`: a level with a suggestion text and a rationale. -/
structure CoachTask where
  level : CoachLevel
  text : String
  why : String
deriving DecidableEq, Repr

/-- The Easy task pushed when `early` (dayNumber ≤ 10). -/
def easyEarlyTask : CoachTask :=
  ⟨.Easy, "5-minute grounding walk (no phone).",
    "Early resets succeed through tiny stable habits, not intensity."⟩

/-- The Easy task pushed in the mid phase (neither early nor late). -/
def easyMidTask : CoachTask :=
  ⟨.Easy, "Set a 60-minute stimulus-free focus block.",
    "Mid-phase: extend clarity windows gradually."⟩

/-- The Easy task pushed when `late` (dayNumber > 40). -/
def easyLateTask : CoachTask :=
  ⟨.Easy, "Plan tomorrow’s top 3 in 90 seconds.",
    "Late-phase: optimize momentum, not restriction."⟩

/-- The Medium task pushed when sleepHours < 7. -/
def mediumSleepTask : CoachTask :=
  ⟨.Medium, "Lights-out time tonight + 20-minute wind-down.",
    "Sleep debt amplifies cravings and worsens baseline stability."⟩

/-- The Medium task pushed when caffeineMg > 200. -/
def mediumCaffeineTask : CoachTask :=
  ⟨.Medium, "Cap caffeine by 2PM; swap one dose for water.",
    "Caffeine can mask fatigue and distort natural calibration."⟩

/-- The default Medium task. -/
def mediumDefaultTask : CoachTask :=
  ⟨.Medium, "2–3 sets of light movement (push-ups or squats).",
    "Light training boosts dopamine tone without spiking it."⟩

/-- The Hard task pushed when DLS > 70. -/
def hardDetoxTask : CoachTask :=
  ⟨.Hard, "Full evening detox: no social media after 8PM.",
    "High-load days benefit most from removing high-density stimuli."⟩

/-- The Hard task pushed when some load item is active. -/
def hardRecoveryTask : CoachTask :=
  ⟨.Hard, "Recovery protocol: 20-min walk + protein + early bed.",
    "A structured rebound stabilizes the next 48 hours."⟩

/-- The environment-control Hard task forced by strictness "Hard". -/
def hardEnvironmentTask : CoachTask :=
  ⟨.Hard, "Phone out of bedroom + no screens final 45 minutes.",
    "Hard mode uses environment control to maximize consistency."⟩

/-- The Hard task pushed when `late`. -/
def hardLateTask : CoachTask :=
  ⟨.Hard, "24-hour low-stimulus cycle (no shortform content).",
    "Late-phase: deepen discipline with bigger resets."⟩

/-- The default Hard task. -/
def hardDefaultTask : CoachTask :=
  ⟨.Hard, "No phone in bed tonight.",
    "Prevents unconscious dopamine loops at night."⟩

/-- Source function `coachTasks(today, dayNumber, strictness)`: one task is
pushed per level through the if/else chains, then `slice(0, 3)`. -/
def coachTasks (today : Checkin) (dayNumber : ℕ) (strictness : Strictness) :
    List CoachTask :=
  let dls := computeDLS today
  let early := dayNumber ≤ 10
  let late := 40 < dayNumber
  let easy := if early then easyEarlyTask else if ¬late then easyMidTask else easyLateTask
  let medium :=
    if today.sleepHours < 7 then mediumSleepTask
    else if 200 < today.caffeineMg then mediumCaffeineTask
    else mediumDefaultTask
  let anyLoad := today.loadItems.any fun x => x.value
  let hard :=
    if 70 < dls then hardDetoxTask
    else if anyLoad then hardRecoveryTask
    else if strictness = Strictness.Hard then hardEnvironmentTask
    else if late then hardLateTask
    else hardDefaultTask
  [easy, medium, hard].take 3

/-- Restatement of the coach decision table in the spec's wording: Easy keyed
on the day index (early / late / mid), Medium on sleep then caffeine, Hard on
DLS, active load item, strictness, lateness, then a default. -/
def coachTasksSpec (today : Checkin) (dayNumber : ℕ) (strictness : Strictness) :
    List CoachTask :=
  let easy :=
    if dayNumber ≤ 10 then easyEarlyTask
    else if 40 < dayNumber then easyLateTask
    else easyMidTask
  let medium :=
    if today.sleepHours < 7 then mediumSleepTask
    else if 200 < today.caffeineMg then mediumCaffeineTask
    else mediumDefaultTask
  let hard :=
    if 70 < computeDLS today then hardDetoxTask
    else if today.loadItems.any fun x => x.value then hardRecoveryTask
    else if strictness = Strictness.Hard then hardEnvironmentTask
    else if 40 < dayNumber then hardLateTask
    else hardDefaultTask
  [easy, medium, hard]

/-- C3: `coachTasks` always returns exactly one Easy, one Medium and one Hard
task, and the selection agrees with the spec's decision table. -/
theorem coachTasks_decision_table :
    ∀ (today : Checkin) (dayNumber : ℕ) (strictness : Strictness),
    (coachTasks today dayNumber strictness).map CoachTask.level =
      [CoachLevel.Easy, CoachLevel.Medium, CoachLevel.Hard] ∧
    coachTasks today dayNumber strictness = coachTasksSpec today dayNumber strictness := by
  intro today dayNumber strictness
  have hspec : coachTasks today dayNumber strictness = coachTasksSpec today dayNumber strictness := by
    simp only [coachTasks, coachTasksSpec, List.take]
    by_cases h1 : dayNumber ≤ 10 <;> by_cases h2 : 40 < dayNumber <;>
      simp [h1, h2]
  refine ⟨?_, hspec⟩
  rw [hspec]
  simp only [coachTasksSpec, List.map_cons, List.map_nil]
  split_ifs <;> rfl

theorem computeDLS_monotone_witness :
    (0 : ℚ) ≤ 10 ∧ (10 : ℚ) ≤ 200 ∧
    computeDLS { exampleRecord with socialMinutes := 10 } ≤
      computeDLS { exampleRecord with socialMinutes := 200 } :=
  ⟨by norm_num, by norm_num,
    (computeDLS_monotone exampleRecord).1 10 200 (by norm_num) (by norm_num)⟩

end DRC

namespace DRC

def insertByDate (x : Checkin) : List Checkin → List Checkin
  | [] => [x]
  | y :: l => if x.date < y.date then x :: y :: l else y :: insertByDate x l

def sortByDate : List Checkin → List Checkin
  | [] => []
  | y :: l => insertByDate y (sortByDate l)

def saveCheckin (history : List Checkin) (draft : Checkin) : List Checkin :=
  let hasDate := history.any fun x => x.date == draft.date
  let next :=
    if hasDate then history.map fun x => if x.date == draft.date then draft else x
    else history ++ [draft]
  sortByDate next

theorem insertByDate_perm (x : Checkin) (l : List Checkin) :
    (insertByDate x l).Perm (x :: l) := by
  induction l with
  | nil => simp [insertByDate]
  | cons y t ih =>
    rw [insertByDate]
    split
    · exact List.Perm.refl _
    · exact ((ih.cons y).trans (List.Perm.swap x y t))

theorem sortByDate_perm (l : List Checkin) : (sortByDate l).Perm l := by
  induction l with
  | nil => simp [sortByDate]
  | cons y t ih =>
    rw [sortByDate]
    exact (insertByDate_perm y (sortByDate t)).trans (ih.cons y)

theorem pairwise_insertByDate {x : Checkin} {l : List Checkin}
    (hs : l.Pairwise fun a b => a.date < b.date)
    (hx : ∀ y ∈ l, x.date ≠ y.date) :
    (insertByDate x l).Pairwise fun a b => a.date < b.date := by
  induction l with
  | nil => simp [insertByDate]
  | cons y t ih =>
    rw [List.pairwise_cons] at hs
    rw [insertByDate]
    split
    · rename_i hlt
      refine List.Pairwise.cons ?_ (List.Pairwise.cons hs.1 hs.2)
      intro z hz
      rcases List.mem_cons.mp hz with hz | hz
      · rw [hz]; exact hlt
      · exact lt_trans hlt (hs.1 z hz)
    · rename_i hnlt
      have hyx : y.date < x.date :=
        lt_of_le_of_ne (not_lt.mp hnlt) (Ne.symm (hx y (List.mem_cons_self y t)))
      refine List.Pairwise.cons ?_ (ih hs.2 fun z hz => hx z (List.mem_cons_of_mem y hz))
      intro z hz
      rcases List.mem_cons.mp ((insertByDate_perm x t).mem_iff.mp hz) with hz | hz
      · rw [hz]; exact hyx
      · exact hs.1 z hz

theorem pairwise_sortByDate {l : List Checkin}
    (hd : l.Pairwise fun a b => a.date ≠ b.date) :
    (sortByDate l).Pairwise fun a b => a.date < b.date := by
  induction l with
  | nil => simp [sortByDate]
  | cons y t ih =>
    rw [List.pairwise_cons] at hd
    rw [sortByDate]
    refine pairwise_insertByDate (ih hd.2) ?_
    intro z hz
    exact hd.1 z ((sortByDate_perm t).mem_iff.mp hz)

/-- C4: saving a check-in upserts by date: on a history with pairwise distinct
dates, an existing date is replaced in place (same length, same date multiset,
all other records kept) and a new date is appended; either way the result has
pairwise distinct dates and is strictly ascending by date string. -/
theorem saveCheckin_upsert (history : List Checkin) (draft : Checkin)
    (hdist : history.Pairwise fun a b => a.date ≠ b.date) :
    ((∃ x ∈ history, x.date = draft.date) →
      (saveCheckin history draft).length = history.length ∧
      draft ∈ saveCheckin history draft ∧
      ((saveCheckin history draft).map Checkin.date).Perm (history.map Checkin.date) ∧
      ∀ x ∈ history, x.date ≠ draft.date → x ∈ saveCheckin history draft) ∧
    ((¬∃ x ∈ history, x.date = draft.date) →
      (saveCheckin history draft).Perm (history ++ [draft])) ∧
    (saveCheckin history draft).Pairwise (fun a b => a.date ≠ b.date) ∧
    (saveCheckin history draft).Pairwise (fun a b => a.date < b.date) := by
  by_cases hex : ∃ x ∈ history, x.date = draft.date
  · obtain ⟨w, hw, hwe⟩ := hex
    have hany : (history.any fun x => x.date == draft.date) = true := by
      rw [List.any_eq_true]
      exact ⟨w, hw, by simp [hwe]⟩
    have hsave : saveCheckin history draft =
        sortByDate (history.map fun x => if x.date == draft.date then draft else x) := by
      simp only [saveCheckin, hany, if_true]
    have hmapdate : ((history.map fun x => if x.date == draft.date then draft else x).map
        Checkin.date) = history.map Checkin.date := by
      rw [List.map_map]
      refine List.map_congr_left ?_
      intro x _
      by_cases hx : x.date = draft.date
      · simp [Function.comp, hx]
      · simp [Function.comp, hx]
    have hRdist : (history.map fun x => if x.date == draft.date then draft else x).Pairwise
        fun a b => a.date ≠ b.date := by
      rw [List.pairwise_map]
      refine hdist.imp ?_
      intro a b hab
      by_cases ha : a.date = draft.date
      · by_cases hb : b.date = draft.date
        · exact absurd (ha.trans hb.symm) hab
        · simp only [ha, hb, beq_iff_eq, if_true, if_false, ite_true, ite_false,
            beq_self_eq_true]
          rw [← ha]
          exact hab
      · by_cases hb : b.date = draft.date
        · simp only [ha, hb, beq_iff_eq, if_true, if_false, ite_true, ite_false,
            beq_self_eq_true]
          rw [← hb]
          exact hab
        · simp only [ha, hb, beq_iff_eq, ite_false, if_false]
          exact hab
    have hperm := sortByDate_perm
      (history.map fun x => if x.date == draft.date then draft else x)
    have hsorted := pairwise_sortByDate hRdist
    refine ⟨fun _ => ⟨?_, ?_, ?_, ?_⟩, fun hc => absurd ⟨w, hw, hwe⟩ hc, ?_, ?_⟩
    · rw [hsave, hperm.length_eq, List.length_map]
    · rw [hsave, hperm.mem_iff]
      exact List.mem_map.mpr ⟨w, hw, by simp [hwe]⟩
    · rw [hsave]
      exact hmapdate ▸ (hperm.map Checkin.date)
    · intro x hx hxne
      rw [hsave, hperm.mem_iff]
      exact List.mem_map.mpr ⟨x, hx, by simp [hxne]⟩
    · rw [hsave]
      exact hsorted.imp fun h => ne_of_lt h
    · rw [hsave]
      exact hsorted
  · have hexall : ∀ x ∈ history, x.date ≠ draft.date := by
      intro x hx
      exact fun he => hex ⟨x, hx, he⟩
    have hany : (history.any fun x => x.date == draft.date) = false := by
      rw [List.any_eq_false]
      intro x hx
      simpa using hexall x hx
    have hsave : saveCheckin history draft = sortByDate (history ++ [draft]) := by
      simp only [saveCheckin, hany, Bool.false_eq_true, if_false]
    have hAdist : (history ++ [draft]).Pairwise fun a b => a.date ≠ b.date := by
      rw [List.pairwise_append]
      refine ⟨hdist, List.pairwise_singleton _ _, ?_⟩
      intro x hx y hy
      rw [List.mem_singleton.mp hy]
      exact hexall x hx
    have hsorted := pairwise_sortByDate hAdist
    refine ⟨fun hc => absurd hc hex, fun _ => ?_, ?_, ?_⟩
    · rw [hsave]
      exact sortByDate_perm _
    · rw [hsave]
      exact hsorted.imp fun h => ne_of_lt h
    · rw [hsave]
      exact hsorted

theorem saveCheckin_upsert_witness :
    (([makeDefaultCheckin "2024-01-02"]).Pairwise fun a b => a.date ≠ b.date) ∧
    ((saveCheckin [makeDefaultCheckin "2024-01-02"] (makeDefaultCheckin "2024-01-01")).Pairwise
      fun a b => a.date < b.date) :=
  ⟨by simp, (saveCheckin_upsert [makeDefaultCheckin "2024-01-02"]
    (makeDefaultCheckin "2024-01-01") (by simp)).2.2.2⟩

end DRC

namespace DRC

/-- JSON values as produced by `JSON.parse` (JS `null` is a value here). -/
inductive Json where
  | null
  | bool (b : Bool)
  | num (q : ℚ)
  | str (s : String)
  | arr (xs : List Json)
  | obj (kvs : List (String × Json))

/-- The opening curly bracket character. -/
def lcurly : Char := Char.ofNat 123

/-- The closing curly bracket character. -/
def rcurly : Char := Char.ofNat 125

/-- JSON insignificant whitespace. -/
def skipWs : List Char → List Char
  | [] => []
  | c :: cs => if c = ' ' ∨ c = '\t' ∨ c = '\n' ∨ c = '\r' then skipWs cs else c :: cs

/-- Longest digit prefix and the remainder. -/
def takeDigits : List Char → List Char × List Char
  | [] => ([], [])
  | c :: cs =>
    if c.isDigit then
      let p := takeDigits cs
      (c :: p.1, p.2)
    else ([], c :: cs)

/-- Decimal digit string to a natural number. -/
def digitsToNat (ds : List Char) : ℕ :=
  ds.foldl (fun a c => a * 10 + (c.toNat - 48)) 0

/-- Value of one hexadecimal digit. -/
def hexVal (c : Char) : Option ℕ :=
  if c.isDigit then some (c.toNat - 48)
  else if 'a' ≤ c ∧ c ≤ 'f' then some (c.toNat - 87)
  else if 'A' ≤ c ∧ c ≤ 'F' then some (c.toNat - 55)
  else none

/-- Single-character JSON string escapes. -/
def escChar (e : Char) : Option Char :=
  if e = '"' then some '"'
  else if e = '\\' then some '\\'
  else if e = '/' then some '/'
  else if e = 'b' then some (Char.ofNat 8)
  else if e = 'f' then some (Char.ofNat 12)
  else if e = 'n' then some '\n'
  else if e = 'r' then some (Char.ofNat 13)
  else if e = 't' then some '\t'
  else none

/-- Characters of a JSON string body up to the closing quote. -/
def parseStringChars : List Char → Option (List Char × List Char)
  | [] => none
  | c :: r =>
    if c = '"' then some ([], r)
    else if c = '\\' then
      match r with
      | [] => none
      | e :: r2 =>
        if e = 'u' then
          match r2 with
          | h1 :: h2 :: h3 :: h4 :: r3 =>
            match hexVal h1, hexVal h2, hexVal h3, hexVal h4 with
            | some a, some b, some c2, some d =>
              (parseStringChars r3).map fun p =>
                (Char.ofNat (((a * 16 + b) * 16 + c2) * 16 + d) :: p.1, p.2)
            | _, _, _, _ => none
          | _ => none
        else
          match escChar e with
          | some ec => (parseStringChars r2).map fun p => (ec :: p.1, p.2)
          | none => none
    else if c.toNat < 32 then none
    else (parseStringChars r).map fun p => (c :: p.1, p.2)

/-- A JSON number (RFC 8259 grammar) and the remainder. -/
def parseNumber (cs : List Char) : Option (ℚ × List Char) :=
  let sp := match cs with
    | '-' :: r => (true, r)
    | _ => (false, cs)
  let ip := takeDigits sp.2
  if ip.1 = [] then none
  else if 1 < ip.1.length ∧ ip.1.headD '0' = '0' then none
  else
    let fp := match ip.2 with
      | '.' :: rr => (true, takeDigits rr)
      | _ => (false, ([], ip.2))
    if fp.1 ∧ fp.2.1 = [] then none
    else
      let mant : ℚ := (digitsToNat ip.1 : ℚ) +
        (digitsToNat fp.2.1 : ℚ) / ((10 : ℚ) ^ fp.2.1.length)
      let signed : ℚ := if sp.1 then -mant else mant
      match fp.2.2 with
      | e :: rr =>
        if e = 'e' ∨ e = 'E' then
          let esp : Bool × List Char := match rr with
            | '+' :: t => (false, t)
            | '-' :: t => (true, t)
            | _ => (false, rr)
          let ed := takeDigits esp.2
          if ed.1 = [] then none
          else
            let ex : ℤ := if esp.1 then -(digitsToNat ed.1 : ℤ) else (digitsToNat ed.1 : ℤ)
            some (signed * (10 : ℚ) ^ ex, ed.2)
        else some (signed, e :: rr)
      | [] => some (signed, [])

mutual

/-- One JSON value (leading whitespace allowed) and the remainder; `fuel`
bounds the nesting depth. -/
def parseValue : ℕ → List Char → Option (Json × List Char)
  | 0, _ => none
  | fuel + 1, cs =>
    match skipWs cs with
    | 'n' :: 'u' :: 'l' :: 'l' :: r => some (Json.null, r)
    | 't' :: 'r' :: 'u' :: 'e' :: r => some (Json.bool true, r)
    | 'f' :: 'a' :: 'l' :: 's' :: 'e' :: r => some (Json.bool false, r)
    | '"' :: r => (parseStringChars r).map fun p => (Json.str (String.mk p.1), p.2)
    | '[' :: r =>
      (match skipWs r with
       | ']' :: r2 => some (Json.arr [], r2)
       | r2 => (parseArrayItems fuel r2).map fun p => (Json.arr p.1, p.2))
    | c :: r =>
      if c = lcurly then
        match skipWs r with
        | [] => none
        | c2 :: r2 =>
          if c2 = rcurly then some (Json.obj [], r2)
          else (parseObjectItems fuel (c2 :: r2)).map fun p => (Json.obj p.1, p.2)
      else (parseNumber (c :: r)).map fun p => (Json.num p.1, p.2)
    | [] => none

/-- Comma-separated JSON values up to the closing square bracket. -/
def parseArrayItems : ℕ → List Char → Option (List Json × List Char)
  | 0, _ => none
  | fuel + 1, cs =>
    match parseValue fuel cs with
    | none => none
    | some (v, r) =>
      match skipWs r with
      | ',' :: r2 => (parseArrayItems fuel r2).map fun p => (v :: p.1, p.2)
      | ']' :: r2 => some ([v], r2)
      | _ => none

/-- Comma-separated `"key": value` members up to the closing curly bracket. -/
def parseObjectItems : ℕ → List Char → Option (List (String × Json) × List Char)
  | 0, _ => none
  | fuel + 1, cs =>
    match skipWs cs with
    | '"' :: r =>
      match parseStringChars r with
      | none => none
      | some (key, r2) =>
        match skipWs r2 with
        | ':' :: r3 =>
          match parseValue fuel r3 with
          | none => none
          | some (v, r4) =>
            match skipWs r4 with
            | ',' :: r5 => (parseObjectItems fuel r5).map fun p =>
                ((String.mk key, v) :: p.1, p.2)
            | c :: r5 => if c = rcurly then some ([(String.mk key, v)], r5) else none
            | [] => none
        | _ => none
    | _ => none

end

/-- Model of `JSON.parse` as a partial function: parse one value and require only
whitespace to remain; `none` models a thrown `SyntaxError`. -/
def jsonParse (s : String) : Option Json :=
  match parseValue (s.length + 1) s.data with
  | some (v, rest) => if skipWs rest = [] then some v else none
  | none => none

end DRC

namespace DRC

/-- Source helper `safeParse<T>(s)`: `null` on falsy input (absence or the
empty string) and on parse failure, otherwise the parsed value.  The JS value
`null` is `Json.null`; absence of the stored string is `Option.none`. -/
def safeParse (s : Option String) : Json :=
  match s with
  | none => Json.null
  | some str =>
    if str = "" then Json.null
    else
      match jsonParse str with
      | none => Json.null
      | some j => j

/-- JS property access `v[k]` on a parsed JSON value: `none` models
`undefined`.  For duplicate keys `JSON.parse` keeps the last occurrence. -/
def jsGet (j : Json) (k : String) : Option Json :=
  match j with
  | Json.obj kvs => ((kvs.filter fun kv => kv.1 == k).getLast?).map Prod.snd
  | _ => none

/-- The `??` operator: the default replaces `undefined` and `null`. -/
def jsNullish (o : Option Json) (dflt : Json) : Json :=
  match o with
  | none => dflt
  | some Json.null => dflt
  | some v => v

/-- State `trackedMacros`: the four macro booleans. -/
structure TrackedMacros where
  calories : Bool
  protein : Bool
  carbs : Bool
  fat : Bool
deriving DecidableEq, Repr

/-- Source constant `DEFAULT_MACROS`: calories and protein tracked, carbs and fat not. -/
def DEFAULT_MACROS : TrackedMacros := ⟨true, true, false, false⟩

/-- JSON encoding of a `TrackedMacros` record, keys in declaration order. -/
def encodeMacros (m : TrackedMacros) : Json :=
  Json.obj [("calories", Json.bool m.calories), ("protein", Json.bool m.protein),
    ("carbs", Json.bool m.carbs), ("fat", Json.bool m.fat)]

/-- The JSON form of `DEFAULT_MACROS`. -/
def defaultMacrosJson : Json := encodeMacros DEFAULT_MACROS

/-- The `initial` memo from the source (browser path): read the stored blob
through `safeParse`, then take each of the four fields with `?.` and `??`
against its default.  Fields remain raw JSON values, as in the source, which
casts without validating. -/
def initialState (stored : Option String) : Json × Json × Json × Json :=
  let saved := safeParse stored
  (jsNullish (jsGet saved "history") (Json.arr []),
   jsNullish (jsGet saved "planDays") (Json.num 100),
   jsNullish (jsGet saved "strictness") (Json.str "Standard"),
   jsNullish (jsGet saved "trackedMacros") defaultMacrosJson)

/-- A JS number: NaN, a signed infinity, or a finite value. -/
inductive JsNum where
  | nan
  | inf (neg : Bool)
  | fin (q : ℚ)
deriving DecidableEq, Repr

/-- Whitespace trimmed by JS `Number()` string coercion. -/
def jsWsChar (c : Char) : Bool :=
  c = ' ' ∨ c = '\t' ∨ c = '\n' ∨ c = '\r' ∨ c = Char.ofNat 11 ∨ c = Char.ofNat 12 ∨
  c = Char.ofNat 160 ∨ c = Char.ofNat 65279

/-- Trim leading and trailing JS whitespace. -/
def trimJs (cs : List Char) : List Char :=
  ((cs.dropWhile jsWsChar).reverse.dropWhile jsWsChar).reverse

/-- All characters as digits in the given radix, none left over. -/
def parseRadixAll (radix : ℕ) (cs : List Char) : Option ℕ :=
  match cs with
  | [] => none
  | _ =>
    cs.foldl
      (fun acc c =>
        match acc, hexVal c with
        | some a, some d => if d < radix then some (a * radix + d) else none
        | _, _ => none)
      (some 0)

/-- A full (unsigned) decimal JS numeric literal: digits, optional fraction,
optional exponent, nothing left over. -/
def parseDecimalJs (cs : List Char) : Option ℚ :=
  let ip := takeDigits cs
  let fr : Bool × (List Char × List Char) :=
    match ip.2 with
    | '.' :: rr => (true, takeDigits rr)
    | _ => (false, ([], ip.2))
  if ip.1 = [] ∧ fr.2.1 = [] then none
  else
    let mant : ℚ := (digitsToNat ip.1 : ℚ) + (digitsToNat fr.2.1 : ℚ) / (10 : ℚ) ^ fr.2.1.length
    match fr.2.2 with
    | [] => some mant
    | e :: rr =>
      if e = 'e' ∨ e = 'E' then
        let esp : Bool × List Char :=
          match rr with
          | '+' :: t => (false, t)
          | '-' :: t => (true, t)
          | _ => (false, rr)
        let ed := takeDigits esp.2
        if ed.1 = [] ∨ ed.2 ≠ [] then none
        else some (mant * (10 : ℚ) ^ (if esp.1 then -(digitsToNat ed.1 : ℤ) else (digitsToNat ed.1 : ℤ)))
      else none

/-- An optionally signed decimal literal or `Infinity`. -/
def jsSignedDecimal (cs : List Char) : JsNum :=
  let sp : Bool × List Char :=
    match cs with
    | '-' :: t => (true, t)
    | '+' :: t => (false, t)
    | _ => (false, cs)
  if sp.2 = ['I', 'n', 'f', 'i', 'n', 'i', 't', 'y'] then JsNum.inf sp.1
  else
    match parseDecimalJs sp.2 with
    | some q => JsNum.fin (if sp.1 then -q else q)
    | none => JsNum.nan

/-- JS `Number()` coercion of a string: trimmed empty input is 0; hex, octal
and binary literals take no sign; otherwise an optionally signed decimal
literal or `Infinity`; anything else is NaN. -/
def jsStringToNumber (s : String) : JsNum :=
  match trimJs s.data with
  | [] => JsNum.fin 0
  | '0' :: x :: r =>
    if x = 'x' ∨ x = 'X' then
      match parseRadixAll 16 r with
      | some n => JsNum.fin n
      | none => JsNum.nan
    else if x = 'o' ∨ x = 'O' then
      match parseRadixAll 8 r with
      | some n => JsNum.fin n
      | none => JsNum.nan
    else if x = 'b' ∨ x = 'B' then
      match parseRadixAll 2 r with
      | some n => JsNum.fin n
      | none => JsNum.nan
    else jsSignedDecimal ('0' :: x :: r)
  | cs => jsSignedDecimal cs

/-- The numeric `onChange` handlers' stored value,
`Number(e.target.value || 0)`: the empty string is falsy, so it becomes the
number 0; any other string goes through `Number()`. -/
def handlerValue (s : String) : JsNum :=
  if s = "" then JsNum.fin 0 else jsStringToNumber s

end DRC

namespace DRC

/-- JSON encoding of a load item, keys in declaration order. -/
def encodeToggle (t : ToggleItem) : Json :=
  Json.obj [("label", Json.str t.label), ("value", Json.bool t.value)]

/-- JSON encoding of the virtues record. -/
def encodeVirtues (v : Virtues) : Json :=
  Json.obj [("study", Json.bool v.study), ("gym", Json.bool v.gym),
    ("meditate", Json.bool v.meditate)]

/-- JSON encoding of a check-in record, keys in declaration order, as
`JSON.stringify` serializes it. -/
def encodeCheckin (c : Checkin) : Json :=
  Json.obj [
    ("date", Json.str c.date),
    ("loadItems", Json.arr (c.loadItems.map encodeToggle)),
    ("virtues", encodeVirtues c.virtues),
    ("sleepHours", Json.num c.sleepHours),
    ("sleepQuality", Json.num c.sleepQuality),
    ("caffeineMg", Json.num c.caffeineMg),
    ("socialMinutes", Json.num c.socialMinutes),
    ("workout", Json.bool c.workout),
    ("mood", Json.num c.mood),
    ("energy", Json.num c.energy),
    ("junkFood", Json.bool c.junkFood),
    ("notes", Json.str c.notes),
    ("calories", Json.num c.calories),
    ("proteinG", Json.num c.proteinG),
    ("carbsG", Json.num c.carbsG),
    ("fatG", Json.num c.fatG)]

/-- The serialized strictness enum. -/
def encodeStrictness (s : Strictness) : Json :=
  Json.str (match s with
    | Strictness.Light => "Light"
    | Strictness.Standard => "Standard"
    | Strictness.Hard => "Hard")

/-- The persistence effect's payload
`{ history, planDays, strictness, trackedMacros }` written under the single
storage key. -/
def persistedPayload (history : List Checkin) (planDays : ℚ) (strictness : Strictness)
    (trackedMacros : TrackedMacros) : Json :=
  Json.obj [
    ("history", Json.arr (history.map encodeCheckin)),
    ("planDays", Json.num planDays),
    ("strictness", encodeStrictness strictness),
    ("trackedMacros", encodeMacros trackedMacros)]

/-- Keys of the top-level object of a JSON value. -/
def topKeys (j : Json) : List String :=
  match j with
  | Json.obj kvs => kvs.map Prod.fst
  | _ => []

mutual

/-- Every object key occurring anywhere in a JSON value. -/
def jsonKeys : Json → List String
  | Json.null => []
  | Json.bool _ => []
  | Json.num _ => []
  | Json.str _ => []
  | Json.arr xs => jsonKeysList xs
  | Json.obj kvs => jsonKeysPairs kvs

/-- Every object key occurring in a list of JSON values. -/
def jsonKeysList : List Json → List String
  | [] => []
  | x :: xs => jsonKeys x ++ jsonKeysList xs

/-- Every object key occurring in a list of object members. -/
def jsonKeysPairs : List (String × Json) → List String
  | [] => []
  | (k, v) :: kvs => k :: (jsonKeys v ++ jsonKeysPairs kvs)

end

/-- Every key that can occur in a persisted payload: the four top-level
fields, the check-in fields, the virtue keys, the load-item member keys and
the macro keys. -/
def persistedKeyUniverse : List String :=
  ["history", "planDays", "strictness", "trackedMacros",
   "date", "loadItems", "virtues", "study", "gym", "meditate",
   "sleepHours", "sleepQuality", "caffeineMg", "socialMinutes", "workout",
   "mood", "energy", "junkFood", "notes",
   "calories", "proteinG", "carbsG", "fatG",
   "label", "value", "protein", "carbs", "fat"]

theorem jsonKeys_encodeToggle_mem {t : ToggleItem} {k : String}
    (hk : k ∈ jsonKeys (encodeToggle t)) : k = "label" ∨ k = "value" := by
  simp [encodeToggle, jsonKeys, jsonKeysPairs] at hk
  tauto

theorem jsonKeysList_toggles_mem {L : List ToggleItem} {k : String}
    (hk : k ∈ jsonKeysList (L.map encodeToggle)) : k = "label" ∨ k = "value" := by
  induction L with
  | nil => simp [jsonKeysList] at hk
  | cons t ts ih =>
    rw [List.map_cons, jsonKeysList, List.mem_append] at hk
    rcases hk with hk | hk
    · exact jsonKeys_encodeToggle_mem hk
    · exact ih hk

theorem jsonKeys_encodeCheckin_eq (c : Checkin) :
    jsonKeys (encodeCheckin c) = "date" :: "loadItems" ::
      (jsonKeysList (c.loadItems.map encodeToggle) ++
        ["virtues", "study", "gym", "meditate", "sleepHours", "sleepQuality",
         "caffeineMg", "socialMinutes", "workout", "mood", "energy", "junkFood",
         "notes", "calories", "proteinG", "carbsG", "fatG"]) := by
  simp [encodeCheckin, encodeVirtues, jsonKeys, jsonKeysPairs, jsonKeysList]

theorem jsonKeys_encodeCheckin_mem {c : Checkin} {k : String}
    (hk : k ∈ jsonKeys (encodeCheckin c)) : k ∈ persistedKeyUniverse := by
  have hfix : ∀ x ∈ ("date" :: "loadItems" :: ["virtues", "study", "gym", "meditate",
      "sleepHours", "sleepQuality", "caffeineMg", "socialMinutes", "workout", "mood",
      "energy", "junkFood", "notes", "calories", "proteinG", "carbsG", "fatG"]),
      x ∈ persistedKeyUniverse := by decide
  have hlv : ∀ x ∈ (["label", "value"] : List String), x ∈ persistedKeyUniverse := by decide
  rw [jsonKeys_encodeCheckin_eq] at hk
  rcases List.mem_cons.mp hk with h | hk2
  · exact hfix k (by simp [h])
  rcases List.mem_cons.mp hk2 with h | hk3
  · exact hfix k (by simp [h])
  rcases List.mem_append.mp hk3 with h | h
  · rcases jsonKeysList_toggles_mem h with h | h
    · exact hlv k (by simp [h])
    · exact hlv k (by simp [h])
  · exact hfix k (List.mem_cons_of_mem _ (List.mem_cons_of_mem _ h))

theorem jsonKeysList_history_mem {H : List Checkin} {k : String}
    (hk : k ∈ jsonKeysList (H.map encodeCheckin)) : k ∈ persistedKeyUniverse := by
  induction H with
  | nil => simp [jsonKeysList] at hk
  | cons c cs ih =>
    rw [List.map_cons, jsonKeysList, List.mem_append] at hk
    rcases hk with hk | hk
    · exact jsonKeys_encodeCheckin_mem hk
    · exact ih hk

theorem jsonKeys_persistedPayload_eq (history : List Checkin) (planDays : ℚ)
    (strictness : Strictness) (trackedMacros : TrackedMacros) :
    jsonKeys (persistedPayload history planDays strictness trackedMacros) =
      "history" :: (jsonKeysList (history.map encodeCheckin) ++
        ["planDays", "strictness", "trackedMacros", "calories", "protein",
         "carbs", "fat"]) := by
  simp [persistedPayload, encodeStrictness, encodeMacros, jsonKeys, jsonKeysPairs,
    jsonKeysList]

/-- C9: the persisted payload has exactly the four top-level fields, and
every key anywhere in it comes from the fixed check-in vocabulary; no
DLS or NEI key is ever written. -/
theorem persistedPayload_shape :
    ∀ (history : List Checkin) (planDays : ℚ) (strictness : Strictness)
      (trackedMacros : TrackedMacros),
    topKeys (persistedPayload history planDays strictness trackedMacros) =
      ["history", "planDays", "strictness", "trackedMacros"] ∧
    ∀ k ∈ jsonKeys (persistedPayload history planDays strictness trackedMacros),
      k ∈ persistedKeyUniverse ∧ k ≠ "DLS" ∧ k ≠ "dls" ∧ k ≠ "NEI" ∧ k ≠ "nei" := by
  intro history planDays strictness trackedMacros
  have hvocab : ∀ x ∈ persistedKeyUniverse,
      x ≠ "DLS" ∧ x ≠ "dls" ∧ x ≠ "NEI" ∧ x ≠ "nei" := by decide
  have hfix : ∀ x ∈ ("history" :: ["planDays", "strictness", "trackedMacros",
      "calories", "protein", "carbs", "fat"]), x ∈ persistedKeyUniverse := by decide
  refine ⟨rfl, ?_⟩
  intro k hk
  rw [jsonKeys_persistedPayload_eq] at hk
  have hku : k ∈ persistedKeyUniverse := by
    rcases List.mem_cons.mp hk with h | hk2
    · exact hfix k (by simp [h])
    rcases List.mem_append.mp hk2 with h | h
    · exact jsonKeysList_history_mem h
    · exact hfix k (List.mem_cons_of_mem _ h)
  exact ⟨hku, hvocab k hku⟩

theorem persistedPayload_shape_witness :
    "history" ∈ jsonKeys (persistedPayload [] 100 Strictness.Standard DEFAULT_MACROS) ∧
    "history" ∈ persistedKeyUniverse :=
  ⟨by simp [persistedPayload, jsonKeys, jsonKeysPairs, jsonKeysList],
    ((persistedPayload_shape [] 100 Strictness.Standard DEFAULT_MACROS).2 "history"
      (by simp [persistedPayload, jsonKeys, jsonKeysPairs, jsonKeysList])).1⟩

end DRC

namespace DRC

/-- C7 counterexample: the nonempty string "abc" denotes no number, yet the
handler stores NaN, not 0. -/
theorem numericInput_nan_counterexample :
    handlerValue "abc" = JsNum.nan ∧ JsNum.nan ≠ JsNum.fin 0 :=
  ⟨rfl, by decide⟩

/-- C7 amended: the handler stores 0 for the empty string (what a number
input delivers for malformed typed text); any nonempty string is stored as
its `Number()` coercion, so 0 is stored exactly when the string is empty or
denotes zero, and a nonempty string denoting no number is stored as NaN. -/
theorem handlerValue_zero_iff :
    (∀ s : String, s = "" → handlerValue s = JsNum.fin 0) ∧
    (∀ s : String, s ≠ "" → handlerValue s = jsStringToNumber s) ∧
    (∀ s : String, handlerValue s = JsNum.fin 0 ↔
      s = "" ∨ jsStringToNumber s = JsNum.fin 0) := by
  refine ⟨?_, ?_, ?_⟩
  · intro s h
    rw [handlerValue, if_pos h]
  · intro s h
    rw [handlerValue, if_neg h]
  · intro s
    by_cases h : s = ""
    · simp [handlerValue, h]
    · simp [handlerValue, h]

theorem handlerValue_zero_iff_witness :
    ("" : String) = "" ∧ handlerValue "" = JsNum.fin 0 :=
  ⟨rfl, handlerValue_zero_iff.1 "" rfl⟩

/-- C8 counterexample: the stored text "null" is present and parses as JSON,
yet `safeParse` still returns null, so "null exactly on absent or unparseable
input" fails. -/
theorem safeParse_nullText_counterexample :
    jsonParse "null" = some Json.null ∧ safeParse (some "null") = Json.null :=
  ⟨rfl, rfl⟩

/-- C8 amended: whenever `safeParse` yields null, initialization falls back to
the default state (empty history, planDays 100, strictness "Standard", default
macros); and `safeParse` yields null exactly on absent input, unparseable
input, or text whose JSON value is null ("never throws" holds by totality). -/
theorem initialState_defaults :
    (∀ s : Option String, safeParse s = Json.null →
      initialState s = (Json.arr [], Json.num 100, Json.str "Standard", defaultMacrosJson)) ∧
    (∀ s : Option String, safeParse s = Json.null ↔
      s = none ∨ ∃ str, s = some str ∧
        (jsonParse str = none ∨ jsonParse str = some Json.null)) := by
  constructor
  · intro s h
    simp [initialState, h, jsGet, jsNullish]
  · intro s
    match s with
    | none => simp [safeParse]
    | some str =>
      by_cases hstr : str = ""
      · subst hstr
        exact iff_of_true rfl (Or.inr ⟨"", rfl, Or.inl rfl⟩)
      · cases hp : jsonParse str with
        | none =>
          refine iff_of_true ?_ (Or.inr ⟨str, rfl, Or.inl hp⟩)
          simp [safeParse, hstr, hp]
        | some j =>
          simp [safeParse, hstr, hp]

theorem initialState_defaults_witness :
    safeParse none = Json.null ∧
    initialState none = (Json.arr [], Json.num 100, Json.str "Standard", defaultMacrosJson) :=
  ⟨rfl, initialState_defaults.1 none rfl⟩

end DRC
